import Mathlib

/-
  Verification development for the cryptocurrency market analysis pipeline
  (src/crypto_analysis.py).

  The program is a linear pipeline: fetch (HTTP GET via the requests
  library), build a pandas DataFrame, summarize, publish to an Excel
  workbook (xlwings) and a markdown report, in an unbounded loop.

  Shallow embedding conventions:
  - Machine floats are modelled as exact rationals; the float NaN is a
    distinguished Value constructor (pandas represents missing data as NaN).
  - Python exceptions are modelled with Except / an explicit fault component;
    a try/except block is a catch on the Except value.
  - External collaborators (the HTTP provider, the filesystem, the Excel
    application) are modelled by explicit behaviour parameters.
-/

namespace Crypto

/-- A cell / column value as it appears in a pandas DataFrame built from the
provider's JSON: a string, a (rational-modelled) number, or NaN (pandas'
encoding of JSON null / missing data). -/
inductive Value where
  | str (s : String)
  | num (q : ℚ)
  | nan
deriving DecidableEq, Repr

/-- Numeric view of a cell: NaN and strings are not numbers. -/
def toNum : Value → Option ℚ
  | .num q => some q
  | _ => none

/-- One raw JSON object from the provider, a finite string-keyed mapping
(keys are assumed distinct, as in a Python dict). -/
abbrev RawRecord := List (String × Value)

/-- Looking a key up in a raw record; pandas turns an absent key into NaN
when building a DataFrame from a list of dicts. -/
def lookupVal (r : RawRecord) (k : String) : Value :=
  match r.lookup k with
  | some v => v
  | none => Value.nan

/-- A pandas DataFrame: column labels, the integer index, and the rows
(each row a list of cell values aligned with the column labels). -/
structure DataFrame where
  cols : List String
  idx : List Nat
  data : List (List Value)
deriving DecidableEq, Repr

/-- The values of column c, one per row (df[c] in pandas): each row
contributes its entry at the position of c in the column-label list. -/
def colVals (df : DataFrame) (c : String) : List Value :=
  df.data.map (fun row => row.getD (df.cols.indexOf c) Value.nan)

/-! ## Data Fetcher (fetch_crypto_data, src lines 8-26) -/

/-- Python exceptions that can arise in this program. -/
inductive PyExc where
  | connectionError
  | httpError (status : Nat)
  | jsonDecodeError
  | keyError
  | excelError
  | ioError
  | indexError
deriving DecidableEq, Repr

/-- Whether an exception is (a subclass of) requests.RequestException, the
class caught by fetch_crypto_data. Since requests 2.27,
requests.exceptions.JSONDecodeError derives from InvalidJSONError which
derives from RequestException, so a malformed body raised by
response.json() is caught as well. -/
def PyExc.isRequestException : PyExc → Bool
  | .connectionError => true
  | .httpError _ => true
  | .jsonDecodeError => true
  | _ => false

/-- Behaviour of the market data provider for one call: either the
transport fails (requests.get raises a RequestException such as
ConnectionError or Timeout), or an HTTP response arrives with a status
code and a body that either decodes to a JSON array of records (some rs)
or is not valid JSON (none). requests follows redirects, so the observed
status is the final one. -/
inductive ProviderBehavior where
  | netError
  | reply (status : Nat) (body : Option (List RawRecord))
deriving DecidableEq, Repr

/-- The body of the try block in fetch_crypto_data: requests.get (may raise
a transport error), response.raise_for_status (raises HTTPError exactly
when 400 <= status < 600, i.e. a 4xx client error or 5xx server error;
any other deliverable status, including the exotic 600-999 range, raises
nothing), response.json() (raises requests JSONDecodeError on a non-JSON
body). -/
def fetch_body (p : ProviderBehavior) : Except PyExc (List RawRecord) :=
  match p with
  | .netError => Except.error PyExc.connectionError
  | .reply status body =>
    if 400 ≤ status ∧ status < 600 then Except.error (PyExc.httpError status)
    else
      match body with
      | none => Except.error PyExc.jsonDecodeError
      | some rs => Except.ok rs

/-- fetch_crypto_data: runs the body under except requests.RequestException,
which converts any such exception into a logged message and a None return;
any other exception would propagate (Except.error). -/
def fetch_crypto_data (p : ProviderBehavior) : Except PyExc (Option (List RawRecord)) :=
  match fetch_body p with
  | Except.ok rs => Except.ok (some rs)
  | Except.error e =>
    if e.isRequestException then Except.ok none else Except.error e

/-! ## Table Builder (process_crypto_data, src lines 27-40) -/

/-- The six provider keys selected by process_crypto_data, in order. -/
def requiredKeys : List String :=
  ["name", "symbol", "current_price", "market_cap",
   "total_volume", "price_change_percentage_24h"]

/-- The six display labels assigned to df.columns, in order. -/
def displayLabels : List String :=
  ["Name", "Symbol", "Price (USD)", "Market Cap",
   "24h Volume", "24h Change %"]

/-- Column labels of pd.DataFrame(data) for a list of dicts: the union of
the records' keys in order of first appearance. -/
def unionKeys (rs : List RawRecord) : List String :=
  rs.foldl (fun acc r => acc ++ ((r.map Prod.fst).filter (fun k => !acc.contains k))) []

/-- pd.DataFrame(data) on a list of dicts: columns are the union of keys in
first-appearance order, the index is the default RangeIndex, and a key
absent from a record becomes NaN in that row. -/
def pdDataFrame (rs : List RawRecord) : DataFrame :=
  let cs := unionKeys rs
  { cols := cs
    idx := List.range rs.length
    data := rs.map (fun r => cs.map (lookupVal r)) }

/-- Column selection df[[ks]]: raises KeyError (none) unless every
requested label is present; otherwise keeps exactly those columns in the
requested order. -/
def selectCols (df : DataFrame) (ks : List String) : Option DataFrame :=
  if ks.all (fun k => df.cols.contains k) then
    some { cols := ks
           idx := df.idx
           data := df.data.map (fun row => ks.map (fun k => row.getD (df.cols.indexOf k) Value.nan)) }
  else none

/-- process_crypto_data: pd.DataFrame(data), select the six provider keys
(KeyError, modelled as none, if any is absent from the column union — in
particular pd.DataFrame([]) has no columns at all), then rename the
columns positionally to the six display labels. -/
def process_crypto_data (data : List RawRecord) : Option DataFrame :=
  (selectCols (pdDataFrame data) requiredKeys).map
    (fun df => { df with cols := displayLabels })

/-! ## Summarizer (analyze_data, src lines 41-51) -/

/-- pandas Series.mean with the default skipna=True: the mean of the
numeric (non-NaN) entries, NaN (none) when there are no numeric entries
(in particular for an empty column). -/
def seriesMean (vs : List Value) : Option ℚ :=
  let nums := vs.filterMap toNum
  if nums.isEmpty then none
  else some (nums.sum / (nums.length : ℚ))

/-- Index and value of the first row attaining the maximum of the numeric
entries of a column; none when no entry is numeric. -/
def bestMax : List Value → Option (Nat × ℚ)
  | [] => none
  | v :: vs =>
    match toNum v, bestMax vs with
    | some q, some (j, m) => if q < m then some (j + 1, m) else some (0, q)
    | some q, none => some (0, q)
    | none, some (j, m) => some (j + 1, m)
    | none, none => none

/-- Index and value of the first row attaining the minimum of the numeric
entries of a column; none when no entry is numeric. -/
def bestMin : List Value → Option (Nat × ℚ)
  | [] => none
  | v :: vs =>
    match toNum v, bestMin vs with
    | some q, some (j, m) => if m < q then some (j + 1, m) else some (0, q)
    | some q, none => some (0, q)
    | none, some (j, m) => some (j + 1, m)
    | none, none => none

/-- The single-row DataFrame made of row i of df (with its original index
label), as returned by df.nlargest(1, c) / df.nsmallest(1, c). -/
def rowAt (df : DataFrame) (i : Nat) : DataFrame :=
  { cols := df.cols
    idx := [df.idx.getD i 0]
    data := [df.data.getD i []] }

/-- df.nlargest(1, c) with the default keep=first: rows are ranked with
NaN entries in column c dropped first and re-appended, in original order,
after all numeric rows (pandas SelectN pads the result with the NaN rows
when fewer than n numeric rows exist); ties among numeric rows are broken
by first occurrence (stable mergesort argsort). So for a non-empty frame
the result is the first row attaining the numeric maximum of column c
when some entry is numeric, and the first row of the frame when every
entry is NaN; for an empty frame it is empty. -/
def nlargest1 (df : DataFrame) (c : String) : DataFrame :=
  match bestMax (colVals df c) with
  | some (i, _) => rowAt df i
  | none =>
    match df.data with
    | [] => { cols := df.cols, idx := [], data := [] }
    | _ :: _ => rowAt df 0

/-- df.nsmallest(1, c) with the default keep=first; symmetric to
nlargest1 with the numeric minimum. -/
def nsmallest1 (df : DataFrame) (c : String) : DataFrame :=
  match bestMin (colVals df c) with
  | some (i, _) => rowAt df i
  | none =>
    match df.data with
    | [] => { cols := df.cols, idx := [], data := [] }
    | _ :: _ => rowAt df 0

/-- df.head() with the default n=5: the first five rows. -/
def head5 (df : DataFrame) : DataFrame :=
  { cols := df.cols
    idx := df.idx.take 5
    data := df.data.take 5 }

/-- The analysis dict built by analyze_data. -/
structure Analysis where
  top_5_by_market_cap : DataFrame
  average_price : Option ℚ
  highest_24h_change : DataFrame
  lowest_24h_change : DataFrame
deriving DecidableEq, Repr

/-- analyze_data: the four derived views of the table. -/
def analyze_data (df : DataFrame) : Analysis :=
  { top_5_by_market_cap := head5 df
    average_price := seriesMean (colVals df "Price (USD)")
    highest_24h_change := nlargest1 df "24h Change %"
    lowest_24h_change := nsmallest1 df "24h Change %" }

/-! ## Publisher: workbook sink (update_excel, src lines 52-83) -/

/-- A worksheet, modelled as a write log: newer cell assignments are
prepended, and reading a cell takes the newest assignment. Cells never
assigned are empty (none). -/
abbrev Sheet := List ((Nat × Nat) × Value)

/-- Read a cell: the most recent write to that position, if any. -/
def getCell : Sheet → Nat × Nat → Option Value
  | [], _ => none
  | (q, v) :: s, p => if p = q then some v else getCell s p

/-- The cell assignments performed by the xlwings write
sheet.range(anchor).value = df, anchored at zero-based (r0, c0): the blank
index-name corner, the column labels across the header row, and for each
row its integer index label followed by its cell values. Listed newest
first (the cells of one DataFrame write are pairwise distinct positions,
so their relative order is irrelevant). -/
def dfCells (df : DataFrame) (r0 c0 : Nat) : Sheet :=
  (((r0, c0), Value.str "") ::
    (List.range df.cols.length).map
      (fun j => ((r0, c0 + 1 + j), Value.str (df.cols.getD j ""))))
  ++ (List.range df.data.length).flatMap
      (fun i =>
        ((r0 + 1 + i, c0), Value.num (df.idx.getD i 0 : ℚ)) ::
        (List.range df.cols.length).map
          (fun j => ((r0 + 1 + i, c0 + 1 + j), (df.data.getD i []).getD j Value.nan)))

/-- The B8 scalar: the average price, NaN when the mean was NaN. -/
def avgCell : Option ℚ → Value
  | some q => Value.num q
  | none => Value.nan

/-- Behaviour of the environment for one cycle: whether the Excel
application faults during the workbook write (modelled at the opening of
the workbook, before any cell is touched), whether the filesystem faults
when the report file is opened for writing, and the wall-clock string
produced by datetime.now().strftime. -/
structure Env where
  wbFault : Bool
  reportFault : Bool
  now : String
deriving DecidableEq, Repr

/-- The cell assignments made on the CryptoData sheet in one
update_excel call, newest first: the timestamp at I1 (zero-based (0,8)),
after the DataFrame write anchored at A1.  range.expand().autofit()
changes no cell values and is not modelled. -/
def updCellsData (env : Env) (df : DataFrame) : Sheet :=
  ((0, 8), Value.str ("Last Updated: " ++ env.now)) :: dfCells df 0 0

/-- The cell assignments made on the Analysis sheet in one update_excel
call, newest first: label at A1, top-5 frame at A2, label at A8, average
at B8, label at A10, highest-change frame at A11, label at A13,
lowest-change frame at A14 (anchors zero-based). -/
def updCellsAnalysis (a : Analysis) : Sheet :=
  dfCells a.lowest_24h_change 13 0
  ++ ((12, 0), Value.str "Lowest 24h Change")
     :: dfCells a.highest_24h_change 10 0
  ++ ((9, 0), Value.str "Highest 24h Change")
     :: ((7, 1), avgCell a.average_price)
     :: ((7, 0), Value.str "Average Price (USD)")
     :: dfCells a.top_5_by_market_cap 1 0
  ++ [((0, 0), Value.str "Top 5 by Market Cap")]

/-- The workbook file: its two named sheets. -/
structure Workbook where
  cryptoData : Sheet
  analysisSheet : Sheet
deriving DecidableEq, Repr

/-- The successful body of update_excel: both sheets receive their new
cell assignments on top of whatever they held, and the workbook is saved. -/
def update_excel_ok (env : Env) (df : DataFrame) (a : Analysis) (wb : Workbook) : Workbook :=
  { cryptoData := updCellsData env df ++ wb.cryptoData
    analysisSheet := updCellsAnalysis a ++ wb.analysisSheet }

/-- update_excel: the body runs under except Exception, so a fault (raised
here when opening the workbook, before any write) is caught and logged —
the function always returns; the Bool records whether an error message was
printed. On a fault the workbook file is not modified. -/
def update_excel (env : Env) (df : DataFrame) (a : Analysis) (wb : Workbook) :
    Workbook × Bool :=
  if env.wbFault then (wb, true)
  else (update_excel_ok env df a wb, false)

/-! ## Publisher: report sink (generate_report, src lines 84-100) -/

/-- Rendering of one cell for the report text (string formatting of floats
is abstracted: exact rationals are printed with toString, NaN as nan). -/
def mdCell : Value → String
  | .str s => s
  | .num q => toString q
  | .nan => "nan"

/-- Abstraction of DataFrame.to_markdown: rows of cells joined by pipes. -/
def mdTable (df : DataFrame) : String :=
  String.intercalate "\n" (df.data.map (fun row => String.intercalate " | " (row.map mdCell)))

/-- The expression frame[c].values[0]: the entry of column c in the first
row (generate_report applies it only after the match on non-empty frames). -/
def firstVal (df : DataFrame) (c : String) : Value :=
  (df.data.getD 0 []).getD (df.cols.indexOf c) Value.nan

/-- The markdown text rendered by generate_report ({:.2f} float formatting
abstracted by exact printing). -/
def renderReport (now : String) (a : Analysis) : String :=
  "# Cryptocurrency Market Analysis Report\nGenerated on: " ++ now
  ++ "\n\n## Top 5 Cryptocurrencies by Market Cap\n"
  ++ mdTable a.top_5_by_market_cap
  ++ "\n\n## Market Overview\n- Average Price: $" ++ mdCell (avgCell a.average_price)
  ++ "\n- Highest 24h Change: " ++ mdCell (firstVal a.highest_24h_change "Name")
  ++ " (" ++ mdCell (firstVal a.highest_24h_change "24h Change %") ++ "%)"
  ++ "\n- Lowest 24h Change: " ++ mdCell (firstVal a.lowest_24h_change "Name")
  ++ " (" ++ mdCell (firstVal a.lowest_24h_change "24h Change %") ++ "%)\n"

/-- generate_report: builds the report text and writes it to the report
path. There is no try/except here: a fault while opening or writing the
file propagates (Except.error), as does the IndexError raised by
values[0] when an extrema frame has no rows. On success the returned
string is the new full content of the report file (mode w truncates). -/
def generate_report (env : Env) (a : Analysis) : Except PyExc String :=
  if env.reportFault then Except.error PyExc.ioError
  else
    match a.highest_24h_change.data, a.lowest_24h_change.data with
    | _ :: _, _ :: _ => Except.ok (renderReport env.now a)
    | _, _ => Except.error PyExc.indexError

/-! ## The main loop body (main, src lines 113-128) -/

/-- The on-disk state the loop mutates: the workbook file and the report
file content (none before the first successful report write). -/
structure FileState where
  workbook : Workbook
  report : Option String
deriving DecidableEq, Repr

/-- One iteration of the while-True loop in main, given the provider's
behaviour for this cycle's fetch. The guard if data tests Python
truthiness, so both None and the empty list skip the cycle. The second
component is the exception, if any, that escapes the iteration and
terminates the process (none: the loop sleeps and continues). A report
fault aborts the process after the workbook write has already completed. -/
def runCycle (env : Env) (p : ProviderBehavior) (fs : FileState) :
    FileState × Option PyExc :=
  match fetch_crypto_data p with
  | Except.error e => (fs, some e)
  | Except.ok data =>
    match data with
    | some (r :: rs) =>
      match process_crypto_data (r :: rs) with
      | none => (fs, some PyExc.keyError)
      | some df =>
        let a := analyze_data df
        let wb1 := (update_excel env df a fs.workbook).1
        match generate_report env a with
        | Except.ok txt => ({ workbook := wb1, report := some txt }, none)
        | Except.error e => ({ workbook := wb1, report := fs.report }, some e)
    | _ => (fs, none)

/-! ## Concrete fixtures used by witnesses and counterexamples -/

/-- A raw provider record with all six required keys and one extra key. -/
def recA : RawRecord :=
  [("name", Value.str "Alpha"), ("symbol", Value.str "ALP"),
   ("current_price", Value.num 1), ("market_cap", Value.num 100),
   ("total_volume", Value.num 10), ("price_change_percentage_24h", Value.num 5),
   ("roi", Value.nan)]

/-- A two-row snapshot table. -/
def dfTwo : DataFrame :=
  { cols := displayLabels
    idx := [0, 1]
    data := [[Value.str "Alpha", Value.str "ALP", Value.num 1, Value.num 100,
              Value.num 10, Value.num 5],
             [Value.str "Bravo", Value.str "BRV", Value.num 3, Value.num 50,
              Value.num 20, Value.num 2]] }

/-- A one-row snapshot table. -/
def dfOne : DataFrame :=
  { cols := displayLabels
    idx := [0]
    data := [[Value.str "Gamma", Value.str "GMM", Value.num 7, Value.num 70,
              Value.num 7, Value.num 1]] }

/-- The spec's round-trip table: three rows with prices 1, 2, 3 and 24h
changes -5, 0, 10. -/
def dfThree : DataFrame :=
  { cols := displayLabels
    idx := [0, 1, 2]
    data := [[Value.str "A", Value.str "a", Value.num 1, Value.num 100,
              Value.num 10, Value.num (-5)],
             [Value.str "B", Value.str "b", Value.num 2, Value.num 90,
              Value.num 11, Value.num 0],
             [Value.str "C", Value.str "c", Value.num 3, Value.num 80,
              Value.num 12, Value.num 10]] }

/-- A table whose first row has NaN price and NaN 24h change. -/
def dfNan : DataFrame :=
  { cols := displayLabels
    idx := [0, 1]
    data := [[Value.str "A", Value.str "a", Value.nan, Value.num 100,
              Value.num 10, Value.nan],
             [Value.str "B", Value.str "b", Value.num 4, Value.num 90,
              Value.num 11, Value.num 2]] }

/-- An empty workbook file. -/
def wb0 : Workbook := { cryptoData := [], analysisSheet := [] }

/-- A file state with an empty workbook and no report yet. -/
def fs0 : FileState := { workbook := wb0, report := none }

/-! ## Helper lemmas -/

/-- Reading through an appended write log: a position covered by the newer
block is served by the newer block. -/
theorem getCell_append_of_mem {l : Sheet} (s : Sheet) {p : Nat × Nat}
    (h : p ∈ l.map Prod.fst) : getCell (l ++ s) p = getCell l p := by
  induction l with
  | nil => simp at h
  | cons qv l ih =>
    obtain ⟨q, v⟩ := qv
    by_cases hpq : p = q
    · simp [getCell, hpq]
    · simp only [List.map_cons, List.mem_cons] at h
      rcases h with h | h
      · exact absurd h hpq
      · simp only [List.cons_append, getCell, if_neg hpq]
        exact ih h

/-- Reading through an appended write log: a position not covered by the
newer block is served by the older log. -/
theorem getCell_append_of_not_mem {l : Sheet} (s : Sheet) {p : Nat × Nat}
    (h : p ∉ l.map Prod.fst) : getCell (l ++ s) p = getCell s p := by
  induction l with
  | nil => simp
  | cons qv l ih =>
    obtain ⟨q, v⟩ := qv
    simp only [List.map_cons, List.mem_cons, not_or] at h
    simp only [List.cons_append, getCell, if_neg h.1]
    exact ih h.2

/-- When bestMax finds nothing, no entry of the column is numeric. -/
theorem bestMax_eq_none {col : List Value} (h : bestMax col = none) :
    ∀ j, j < col.length → toNum (col.getD j Value.nan) = none := by
  induction col with
  | nil => intro j hj; simp at hj
  | cons v vs ih =>
    intro j hj
    cases htv : toNum v with
    | some q =>
      cases hbm : bestMax vs with
      | some jm =>
        obtain ⟨a, b⟩ := jm
        simp only [bestMax, htv, hbm] at h
        split at h <;> simp at h
      | none => simp only [bestMax, htv, hbm] at h; simp at h
    | none =>
      cases hbm : bestMax vs with
      | some jm => simp only [bestMax, htv, hbm] at h; simp at h
      | none =>
        cases j with
        | zero => simpa using htv
        | succ k =>
          simp only [List.getD_cons_succ]
          exact ih hbm k (by simpa using Nat.lt_of_succ_lt_succ hj)

/-- Full characterization of bestMax: it returns an in-range index whose
entry is numeric and attains the value, the value bounds every numeric
entry from above, and no earlier entry attains the value. -/
theorem bestMax_spec {col : List Value} {i : Nat} {m : ℚ}
    (h : bestMax col = some (i, m)) :
    i < col.length
    ∧ toNum (col.getD i Value.nan) = some m
    ∧ (∀ j q, j < col.length → toNum (col.getD j Value.nan) = some q → q ≤ m)
    ∧ (∀ j, j < i → toNum (col.getD j Value.nan) ≠ some m) := by
  induction col generalizing i m with
  | nil => simp [bestMax] at h
  | cons v vs ih =>
    cases htv : toNum v with
    | some q =>
      cases hbm : bestMax vs with
      | some jm =>
        obtain ⟨j, m'⟩ := jm
        simp only [bestMax, htv, hbm] at h
        obtain ⟨hlen, hatt, hge, hfirst⟩ := ih hbm
        by_cases hlt : q < m'
        · rw [if_pos hlt] at h
          simp only [Option.some.injEq, Prod.mk.injEq] at h
          obtain ⟨hi, hm⟩ := h
          subst hi; subst hm
          refine ⟨by simpa using Nat.succ_lt_succ hlen, by simpa using hatt, ?_, ?_⟩
          · intro j0 q0 hj0 hq0
            cases j0 with
            | zero =>
              rw [List.getD_cons_zero, htv] at hq0
              exact le_of_lt (Option.some.inj hq0 ▸ hlt)
            | succ k =>
              rw [List.getD_cons_succ] at hq0
              exact hge k q0 (by simpa using Nat.lt_of_succ_lt_succ hj0) hq0
          · intro j0 hj0
            cases j0 with
            | zero =>
              rw [List.getD_cons_zero, htv]
              exact fun hc => absurd (Option.some.inj hc) (ne_of_lt hlt)
            | succ k =>
              rw [List.getD_cons_succ]
              exact hfirst k (Nat.lt_of_succ_lt_succ hj0)
        · rw [if_neg hlt] at h
          simp only [Option.some.injEq, Prod.mk.injEq] at h
          obtain ⟨hi, hm⟩ := h
          subst hi; subst hm
          refine ⟨Nat.succ_pos _, by simpa using htv, ?_, ?_⟩
          · intro j0 q0 hj0 hq0
            cases j0 with
            | zero =>
              rw [List.getD_cons_zero, htv] at hq0
              exact le_of_eq (Option.some.inj hq0).symm
            | succ k =>
              rw [List.getD_cons_succ] at hq0
              exact le_trans (hge k q0 (by simpa using Nat.lt_of_succ_lt_succ hj0) hq0)
                (not_lt.mp hlt)
          · intro j0 hj0
            exact absurd hj0 (Nat.not_lt_zero _)
      | none =>
        simp only [bestMax, htv, hbm] at h
        simp only [Option.some.injEq, Prod.mk.injEq] at h
        obtain ⟨hi, hm⟩ := h
        subst hi; subst hm
        refine ⟨Nat.succ_pos _, by simpa using htv, ?_, ?_⟩
        · intro j0 q0 hj0 hq0
          cases j0 with
          | zero =>
            rw [List.getD_cons_zero, htv] at hq0
            exact le_of_eq (Option.some.inj hq0).symm
          | succ k =>
            rw [List.getD_cons_succ] at hq0
            rw [bestMax_eq_none hbm k (by simpa using Nat.lt_of_succ_lt_succ hj0)] at hq0
            exact absurd hq0 (by simp)
        · intro j0 hj0
          exact absurd hj0 (Nat.not_lt_zero _)
    | none =>
      cases hbm : bestMax vs with
      | some jm =>
        obtain ⟨j, m'⟩ := jm
        simp only [bestMax, htv, hbm] at h
        simp only [Option.some.injEq, Prod.mk.injEq] at h
        obtain ⟨hi, hm⟩ := h
        subst hi; subst hm
        obtain ⟨hlen, hatt, hge, hfirst⟩ := ih hbm
        refine ⟨by simpa using Nat.succ_lt_succ hlen, by simpa using hatt, ?_, ?_⟩
        · intro j0 q0 hj0 hq0
          cases j0 with
          | zero =>
            rw [List.getD_cons_zero, htv] at hq0
            exact absurd hq0 (by simp)
          | succ k =>
            rw [List.getD_cons_succ] at hq0
            exact hge k q0 (by simpa using Nat.lt_of_succ_lt_succ hj0) hq0
        · intro j0 hj0
          cases j0 with
          | zero =>
            rw [List.getD_cons_zero, htv]
            simp
          | succ k =>
            rw [List.getD_cons_succ]
            exact hfirst k (Nat.lt_of_succ_lt_succ hj0)
      | none =>
        simp only [bestMax, htv, hbm] at h
        exact Option.noConfusion h

/-- When bestMin finds nothing, no entry of the column is numeric. -/
theorem bestMin_eq_none {col : List Value} (h : bestMin col = none) :
    ∀ j, j < col.length → toNum (col.getD j Value.nan) = none := by
  induction col with
  | nil => intro j hj; simp at hj
  | cons v vs ih =>
    intro j hj
    cases htv : toNum v with
    | some q =>
      cases hbm : bestMin vs with
      | some jm =>
        obtain ⟨a, b⟩ := jm
        simp only [bestMin, htv, hbm] at h
        split at h <;> simp at h
      | none => simp only [bestMin, htv, hbm] at h; simp at h
    | none =>
      cases hbm : bestMin vs with
      | some jm => simp only [bestMin, htv, hbm] at h; simp at h
      | none =>
        cases j with
        | zero => simpa using htv
        | succ k =>
          simp only [List.getD_cons_succ]
          exact ih hbm k (by simpa using Nat.lt_of_succ_lt_succ hj)

/-- Full characterization of bestMin, dual to bestMax_spec. -/
theorem bestMin_spec {col : List Value} {i : Nat} {m : ℚ}
    (h : bestMin col = some (i, m)) :
    i < col.length
    ∧ toNum (col.getD i Value.nan) = some m
    ∧ (∀ j q, j < col.length → toNum (col.getD j Value.nan) = some q → m ≤ q)
    ∧ (∀ j, j < i → toNum (col.getD j Value.nan) ≠ some m) := by
  induction col generalizing i m with
  | nil => simp [bestMin] at h
  | cons v vs ih =>
    cases htv : toNum v with
    | some q =>
      cases hbm : bestMin vs with
      | some jm =>
        obtain ⟨j, m'⟩ := jm
        simp only [bestMin, htv, hbm] at h
        obtain ⟨hlen, hatt, hge, hfirst⟩ := ih hbm
        by_cases hlt : m' < q
        · rw [if_pos hlt] at h
          simp only [Option.some.injEq, Prod.mk.injEq] at h
          obtain ⟨hi, hm⟩ := h
          subst hi; subst hm
          refine ⟨by simpa using Nat.succ_lt_succ hlen, by simpa using hatt, ?_, ?_⟩
          · intro j0 q0 hj0 hq0
            cases j0 with
            | zero =>
              rw [List.getD_cons_zero, htv] at hq0
              exact le_of_lt (Option.some.inj hq0 ▸ hlt)
            | succ k =>
              rw [List.getD_cons_succ] at hq0
              exact hge k q0 (by simpa using Nat.lt_of_succ_lt_succ hj0) hq0
          · intro j0 hj0
            cases j0 with
            | zero =>
              rw [List.getD_cons_zero, htv]
              exact fun hc => absurd (Option.some.inj hc) (ne_of_gt hlt)
            | succ k =>
              rw [List.getD_cons_succ]
              exact hfirst k (Nat.lt_of_succ_lt_succ hj0)
        · rw [if_neg hlt] at h
          simp only [Option.some.injEq, Prod.mk.injEq] at h
          obtain ⟨hi, hm⟩ := h
          subst hi; subst hm
          refine ⟨Nat.succ_pos _, by simpa using htv, ?_, ?_⟩
          · intro j0 q0 hj0 hq0
            cases j0 with
            | zero =>
              rw [List.getD_cons_zero, htv] at hq0
              exact le_of_eq (Option.some.inj hq0)
            | succ k =>
              rw [List.getD_cons_succ] at hq0
              exact le_trans (not_lt.mp hlt)
                (hge k q0 (by simpa using Nat.lt_of_succ_lt_succ hj0) hq0)
          · intro j0 hj0
            exact absurd hj0 (Nat.not_lt_zero _)
      | none =>
        simp only [bestMin, htv, hbm] at h
        simp only [Option.some.injEq, Prod.mk.injEq] at h
        obtain ⟨hi, hm⟩ := h
        subst hi; subst hm
        refine ⟨Nat.succ_pos _, by simpa using htv, ?_, ?_⟩
        · intro j0 q0 hj0 hq0
          cases j0 with
          | zero =>
            rw [List.getD_cons_zero, htv] at hq0
            exact le_of_eq (Option.some.inj hq0)
          | succ k =>
            rw [List.getD_cons_succ] at hq0
            rw [bestMin_eq_none hbm k (by simpa using Nat.lt_of_succ_lt_succ hj0)] at hq0
            exact absurd hq0 (by simp)
        · intro j0 hj0
          exact absurd hj0 (Nat.not_lt_zero _)
    | none =>
      cases hbm : bestMin vs with
      | some jm =>
        obtain ⟨j, m'⟩ := jm
        simp only [bestMin, htv, hbm] at h
        simp only [Option.some.injEq, Prod.mk.injEq] at h
        obtain ⟨hi, hm⟩ := h
        subst hi; subst hm
        obtain ⟨hlen, hatt, hge, hfirst⟩ := ih hbm
        refine ⟨by simpa using Nat.succ_lt_succ hlen, by simpa using hatt, ?_, ?_⟩
        · intro j0 q0 hj0 hq0
          cases j0 with
          | zero =>
            rw [List.getD_cons_zero, htv] at hq0
            exact absurd hq0 (by simp)
          | succ k =>
            rw [List.getD_cons_succ] at hq0
            exact hge k q0 (by simpa using Nat.lt_of_succ_lt_succ hj0) hq0
        · intro j0 hj0
          cases j0 with
          | zero =>
            rw [List.getD_cons_zero, htv]
            simp
          | succ k =>
            rw [List.getD_cons_succ]
            exact hfirst k (Nat.lt_of_succ_lt_succ hj0)
      | none =>
        simp only [bestMin, htv, hbm] at h
        exact Option.noConfusion h

/-- The column view has one entry per row. -/
theorem colVals_length (df : DataFrame) (c : String) :
    (colVals df c).length = df.data.length := by
  simp [colVals]

/-- Characterization of nlargest1 on a non-empty frame: it is the single
row at an in-range index whose column-c value bounds every numeric entry
of the column from above, and no earlier row attains the same value. -/
theorem nlargest1_cases (df : DataFrame) (c : String) (hne : df.data ≠ []) :
    ∃ i, i < df.data.length
      ∧ nlargest1 df c = rowAt df i
      ∧ (∀ j q, j < df.data.length →
           toNum ((colVals df c).getD j Value.nan) = some q →
           ∃ m, toNum ((colVals df c).getD i Value.nan) = some m ∧ q ≤ m)
      ∧ (∀ j, j < i →
           toNum ((colVals df c).getD j Value.nan)
             ≠ toNum ((colVals df c).getD i Value.nan)) := by
  cases hbm : bestMax (colVals df c) with
  | some im =>
    obtain ⟨i, m⟩ := im
    obtain ⟨hlen, hatt, hge, hfirst⟩ := bestMax_spec hbm
    rw [colVals_length] at hlen
    refine ⟨i, hlen, ?_, ?_, ?_⟩
    · simp [nlargest1, hbm]
    · intro j q hj hq
      exact ⟨m, hatt, hge j q (by rw [colVals_length]; exact hj) hq⟩
    · intro j hj
      rw [hatt]
      exact hfirst j hj
  | none =>
    have hpos : 0 < df.data.length := by
      cases hd : df.data with
      | nil => exact absurd hd hne
      | cons r rs => simp [hd]
    refine ⟨0, hpos, ?_, ?_, ?_⟩
    · cases hd : df.data with
      | nil => exact absurd hd hne
      | cons r rs => simp [nlargest1, hbm, hd]
    · intro j q hj hq
      rw [bestMax_eq_none hbm j (by rw [colVals_length]; exact hj)] at hq
      exact absurd hq (by simp)
    · intro j hj
      exact absurd hj (Nat.not_lt_zero _)

/-- Characterization of nsmallest1, dual to nlargest1_cases. -/
theorem nsmallest1_cases (df : DataFrame) (c : String) (hne : df.data ≠ []) :
    ∃ i, i < df.data.length
      ∧ nsmallest1 df c = rowAt df i
      ∧ (∀ j q, j < df.data.length →
           toNum ((colVals df c).getD j Value.nan) = some q →
           ∃ m, toNum ((colVals df c).getD i Value.nan) = some m ∧ m ≤ q)
      ∧ (∀ j, j < i →
           toNum ((colVals df c).getD j Value.nan)
             ≠ toNum ((colVals df c).getD i Value.nan)) := by
  cases hbm : bestMin (colVals df c) with
  | some im =>
    obtain ⟨i, m⟩ := im
    obtain ⟨hlen, hatt, hge, hfirst⟩ := bestMin_spec hbm
    rw [colVals_length] at hlen
    refine ⟨i, hlen, ?_, ?_, ?_⟩
    · simp [nsmallest1, hbm]
    · intro j q hj hq
      exact ⟨m, hatt, hge j q (by rw [colVals_length]; exact hj) hq⟩
    · intro j hj
      rw [hatt]
      exact hfirst j hj
  | none =>
    have hpos : 0 < df.data.length := by
      cases hd : df.data with
      | nil => exact absurd hd hne
      | cons r rs => simp [hd]
    refine ⟨0, hpos, ?_, ?_, ?_⟩
    · cases hd : df.data with
      | nil => exact absurd hd hne
      | cons r rs => simp [nsmallest1, hbm, hd]
    · intro j q hj hq
      rw [bestMin_eq_none hbm j (by rw [colVals_length]; exact hj)] at hq
      exact absurd hq (by simp)
    · intro j hj
      exact absurd hj (Nat.not_lt_zero _)

/-- On a non-empty frame both extremum views hold exactly one row. -/
theorem nlargest1_one_row (df : DataFrame) (c : String) (hne : df.data ≠ []) :
    (nlargest1 df c).data.length = 1 := by
  obtain ⟨i, _, he, _, _⟩ := nlargest1_cases df c hne
  rw [he]
  rfl

/-- On a non-empty frame the minimum view holds exactly one row. -/
theorem nsmallest1_one_row (df : DataFrame) (c : String) (hne : df.data ≠ []) :
    (nsmallest1 df c).data.length = 1 := by
  obtain ⟨i, _, he, _, _⟩ := nsmallest1_cases df c hne
  rw [he]
  rfl

/-- If every entry is numeric, no entry is dropped by filterMap toNum. -/
theorem length_filterMap_toNum {l : List Value}
    (h : ∀ v ∈ l, (toNum v).isSome = true) :
    (l.filterMap toNum).length = l.length := by
  induction l with
  | nil => rfl
  | cons v vs ih =>
    obtain ⟨q, hq⟩ := Option.isSome_iff_exists.mp (h v (by simp))
    simp [List.filterMap_cons, hq, ih (fun w hw => h w (by simp [hw]))]

/-- Dropping the non-numeric entries first does not change the numeric
projection of a column. -/
theorem filterMap_toNum_filter (l : List Value) :
    (l.filter (fun v => (toNum v).isSome)).filterMap toNum
      = l.filterMap toNum := by
  induction l with
  | nil => rfl
  | cons v vs ih =>
    cases hv : toNum v with
    | some q => simp [List.filter_cons, hv, List.filterMap_cons, ih]
    | none => simp [List.filter_cons, hv, List.filterMap_cons, ih]

/-- A successful key lookup means the key occurs in the record. -/
theorem lookup_isSome_mem {r : RawRecord} {k : String}
    (h : (r.lookup k).isSome = true) : k ∈ r.map Prod.fst := by
  induction r with
  | nil => simp [List.lookup] at h
  | cons kv r ih =>
    obtain ⟨k0, v0⟩ := kv
    by_cases hk : k = k0
    · simp [hk]
    · have hb : (k == k0) = false := beq_eq_false_iff_ne.mpr hk
      rw [List.lookup_cons, hb] at h
      simp only [List.map_cons, List.mem_cons]
      exact Or.inr (ih (by simpa using h))

/-- The key-union fold never loses keys already accumulated. -/
theorem foldl_keys_mono {k : String} (rs : List RawRecord) :
    ∀ acc : List String, k ∈ acc →
      k ∈ rs.foldl
        (fun acc r => acc ++ ((r.map Prod.fst).filter (fun x => !acc.contains x))) acc := by
  induction rs with
  | nil => intro acc h; simpa using h
  | cons r rs ih =>
    intro acc h
    rw [List.foldl_cons]
    exact ih _ (List.mem_append_left _ h)

/-- The key-union fold picks up every key of every processed record. -/
theorem foldl_keys_covers {k : String} {r : RawRecord}
    (hk : k ∈ r.map Prod.fst) (rs : List RawRecord) :
    ∀ acc : List String, r ∈ rs →
      k ∈ rs.foldl
        (fun acc r => acc ++ ((r.map Prod.fst).filter (fun x => !acc.contains x))) acc := by
  induction rs with
  | nil => intro acc h; simp at h
  | cons r0 rs ih =>
    intro acc hr
    rw [List.foldl_cons]
    rcases List.mem_cons.mp hr with h | h
    · subst h
      apply foldl_keys_mono
      by_cases hacc : acc.contains k
      · exact List.mem_append_left _ (by simpa using hacc)
      · refine List.mem_append_right _ ?_
        rw [List.mem_filter]
        exact ⟨hk, by simpa using hacc⟩
    · exact ih _ h

/-- Every key of every record appears among the DataFrame columns. -/
theorem mem_unionKeys {k : String} {r : RawRecord} {rs : List RawRecord}
    (hr : r ∈ rs) (hk : k ∈ r.map Prod.fst) : k ∈ unionKeys rs := by
  rw [unionKeys]
  exact foldl_keys_covers hk rs [] hr

/-- Reading a mapped list back at the index of a column label recovers the
mapped value at that label. -/
theorem getD_map_indexOf {cs : List String} {k : String} (f : String → Value)
    (h : k ∈ cs) :
    (cs.map f).getD (cs.indexOf k) Value.nan = f k := by
  have hlt : cs.indexOf k < cs.length := List.indexOf_lt_length.mpr h
  rw [List.getD_eq_getElem _ _ (by simpa using hlt)]
  rw [List.getElem_map]
  congr 1
  exact List.getElem_indexOf hlt

/-- generate_report succeeds exactly as a render of the analysis when the
filesystem cooperates and both extremum frames are non-empty. -/
theorem generate_report_ok (env : Env) (a : Analysis)
    (hr : env.reportFault = false) (h1 : a.highest_24h_change.data ≠ [])
    (h2 : a.lowest_24h_change.data ≠ []) :
    generate_report env a = Except.ok (renderReport env.now a) := by
  cases hd1 : a.highest_24h_change.data with
  | nil => exact absurd hd1 h1
  | cons x xs =>
    cases hd2 : a.lowest_24h_change.data with
    | nil => exact absurd hd2 h2
    | cons y ys => simp [generate_report, hr, hd1, hd2]

end Crypto

namespace Crypto

/-! ## Claim theorems -/

/-- C1: for every fetch attempt, any transport error, non-success HTTP
status (a 4xx/5xx error status, the statuses raise_for_status treats as
faults), or malformed (non-JSON-decodable) provider response causes
fetch_crypto_data to return the failure indicator (None) rather than
propagating an exception out of the function. -/
theorem fetch_error_handling (p : ProviderBehavior)
    (h : p = ProviderBehavior.netError
      ∨ ∃ s b, p = ProviderBehavior.reply s b
          ∧ ((400 ≤ s ∧ s < 600) ∨ b = none)) :
    fetch_crypto_data p = Except.ok none
    ∧ ∀ e, fetch_crypto_data p ≠ Except.error e := by
  have h1 : fetch_crypto_data p = Except.ok none := by
    rcases h with h | ⟨s, b, rfl, hsb⟩
    · subst h; rfl
    · rcases hsb with hs | rfl
      · simp [fetch_crypto_data, fetch_body, hs.1, hs.2, PyExc.isRequestException]
      · by_cases hs : 400 ≤ s ∧ s < 600 <;>
          simp [fetch_crypto_data, fetch_body, hs, PyExc.isRequestException]
  exact ⟨h1, fun e he => by rw [h1] at he; exact Except.noConfusion he⟩

/-- Witness for C1 at a concrete input: a success status with a body that
is not JSON-decodable yields the failure indicator. -/
theorem fetch_error_handling_witness :
    fetch_crypto_data (ProviderBehavior.reply 200 none) = Except.ok none :=
  (fetch_error_handling (ProviderBehavior.reply 200 none)
    (Or.inr ⟨200, none, rfl, Or.inr rfl⟩)).1

/-- C7: in every cycle in which the fetch returns the failure indicator,
neither the workbook nor the report file is written and the process does
not terminate: the loop proceeds to the next scheduled cycle. -/
theorem fetch_failure_skips_cycle (env : Env) (p : ProviderBehavior)
    (fs : FileState) (h : fetch_crypto_data p = Except.ok none) :
    runCycle env p fs = (fs, none) := by
  simp [runCycle, h]

/-- Witness for C7 at a concrete input: a 500-status cycle leaves the
files untouched and raises nothing. -/
theorem fetch_failure_skips_cycle_witness :
    runCycle ⟨false, false, "T"⟩ (ProviderBehavior.reply 500 (some [])) fs0
      = (fs0, none) :=
  fetch_failure_skips_cycle ⟨false, false, "T"⟩
    (ProviderBehavior.reply 500 (some [])) fs0 rfl

/-- C9: a successful fetch of an empty record sequence is treated exactly
like a fetch failure, because the truthiness guard in main rejects the
empty list: the cycle is skipped entirely, with no table build, no
analysis, no workbook write, no report write, and no termination. -/
theorem empty_payload_like_failure (env : Env) (s : Nat) (fs : FileState)
    (h : s < 400) :
    runCycle env (ProviderBehavior.reply s (some [])) fs = (fs, none)
    ∧ runCycle env (ProviderBehavior.reply s (some [])) fs
        = runCycle env ProviderBehavior.netError fs := by
  have hfetch : fetch_crypto_data (ProviderBehavior.reply s (some []))
      = Except.ok (some []) := by
    have hns : ¬(400 ≤ s ∧ s < 600) := fun hc => absurd hc.1 (not_le.mpr h)
    simp [fetch_crypto_data, fetch_body, hns]
  have h1 : runCycle env (ProviderBehavior.reply s (some [])) fs = (fs, none) := by
    simp [runCycle, hfetch]
  have h2 : runCycle env ProviderBehavior.netError fs = (fs, none) := by
    simp [runCycle, fetch_crypto_data, fetch_body, PyExc.isRequestException]
  exact ⟨h1, by rw [h1, h2]⟩

/-- Witness for C9 at a concrete input: an HTTP 200 reply with an empty
JSON array skips the cycle. -/
theorem empty_payload_like_failure_witness :
    runCycle ⟨false, false, "T"⟩ (ProviderBehavior.reply 200 (some [])) fs0
      = (fs0, none) :=
  (empty_payload_like_failure ⟨false, false, "T"⟩ 200 fs0 (by decide)).1

end Crypto

namespace Crypto

/-- C3: for every non-empty table, highest_24h_change and
lowest_24h_change each return exactly one row; that row's 24h-change
value is at least (resp. at most) the 24h-change value of every row of
the table that carries a numeric value; and when several rows share the
extremal value, the row returned is the first such row in table order
(no earlier row carries the same column value). -/
theorem highest_lowest_extremal (df : DataFrame)
    (_hcols : df.cols = displayLabels) (hne : df.data ≠ []) :
    ((analyze_data df).highest_24h_change.data.length = 1
      ∧ ∃ i, i < df.data.length
          ∧ (analyze_data df).highest_24h_change.data = [df.data.getD i []]
          ∧ (∀ j q, j < df.data.length →
               toNum ((colVals df "24h Change %").getD j Value.nan) = some q →
               ∃ m, toNum ((colVals df "24h Change %").getD i Value.nan) = some m
                 ∧ q ≤ m)
          ∧ (∀ j, j < i →
               toNum ((colVals df "24h Change %").getD j Value.nan)
                 ≠ toNum ((colVals df "24h Change %").getD i Value.nan)))
    ∧ ((analyze_data df).lowest_24h_change.data.length = 1
      ∧ ∃ i, i < df.data.length
          ∧ (analyze_data df).lowest_24h_change.data = [df.data.getD i []]
          ∧ (∀ j q, j < df.data.length →
               toNum ((colVals df "24h Change %").getD j Value.nan) = some q →
               ∃ m, toNum ((colVals df "24h Change %").getD i Value.nan) = some m
                 ∧ m ≤ q)
          ∧ (∀ j, j < i →
               toNum ((colVals df "24h Change %").getD j Value.nan)
                 ≠ toNum ((colVals df "24h Change %").getD i Value.nan))) := by
  constructor
  · obtain ⟨i, hi, he, hge, hfirst⟩ := nlargest1_cases df "24h Change %" hne
    have hl : (analyze_data df).highest_24h_change = rowAt df i := he
    exact ⟨by rw [hl]; rfl, i, hi, by rw [hl]; rfl, hge, hfirst⟩
  · obtain ⟨i, hi, he, hge, hfirst⟩ := nsmallest1_cases df "24h Change %" hne
    have hl : (analyze_data df).lowest_24h_change = rowAt df i := he
    exact ⟨by rw [hl]; rfl, i, hi, by rw [hl]; rfl, hge, hfirst⟩

/-- Witness for C3 at the spec's three-row round-trip table: each
extremum view holds exactly one row. -/
theorem highest_lowest_extremal_witness :
    (analyze_data dfThree).highest_24h_change.data.length = 1
    ∧ (analyze_data dfThree).lowest_24h_change.data.length = 1 :=
  ⟨(highest_lowest_extremal dfThree rfl (by decide)).1.1,
   (highest_lowest_extremal dfThree rfl (by decide)).2.1⟩

/-- C5: for every non-empty table whose price column is numeric,
average_price is the sum of the prices divided by the row count; for the
empty table it is the single explicitly defined value NaN (none). -/
theorem average_price_mean (df : DataFrame)
    (_hcols : df.cols = displayLabels) :
    (df.data = [] → (analyze_data df).average_price = none)
    ∧ (df.data ≠ [] →
        (∀ v ∈ colVals df "Price (USD)", (toNum v).isSome = true) →
        (analyze_data df).average_price
          = some (((colVals df "Price (USD)").filterMap toNum).sum
              / (df.data.length : ℚ))) := by
  constructor
  · intro h
    simp [analyze_data, seriesMean, colVals, h]
  · intro hne hall
    have hlen := length_filterMap_toNum hall
    rw [colVals_length] at hlen
    have hpos : df.data.length ≠ 0 := by
      intro h0
      exact hne (List.length_eq_zero.mp h0)
    have hnil : (colVals df "Price (USD)").filterMap toNum ≠ [] := by
      intro h0
      rw [h0] at hlen
      exact hpos hlen.symm
    simp only [analyze_data, seriesMean]
    rw [if_neg (by simpa [List.isEmpty_iff] using hnil), hlen]

/-- Witness for C5 at the spec's three-row round-trip table: the average
of prices 1, 2, 3 is 2, and the sum-over-count formula applies. -/
theorem average_price_mean_witness :
    (analyze_data dfThree).average_price
      = some (((colVals dfThree "Price (USD)").filterMap toNum).sum
          / (dfThree.data.length : ℚ)) :=
  (average_price_mean dfThree rfl).2 (by decide) (by decide)

/-- C8: for every table with n rows, top_5_by_market_cap returns exactly
min(5, n) rows, and those rows are the first min(5, n) rows of the table
in the same relative order as the input table. -/
theorem top5_head_rows (df : DataFrame) (_hcols : df.cols = displayLabels) :
    (analyze_data df).top_5_by_market_cap.data.length = min 5 df.data.length
    ∧ ∀ i, i < min 5 df.data.length →
        (analyze_data df).top_5_by_market_cap.data.getD i []
          = df.data.getD i [] := by
  constructor
  · simp [analyze_data, head5]
  · intro i hi
    have hilen : i < df.data.length := lt_of_lt_of_le hi (min_le_right _ _)
    simp only [analyze_data, head5]
    rw [List.getD_eq_getElem _ _ (by simpa [List.length_take] using hi),
        List.getD_eq_getElem _ _ hilen]
    exact List.getElem_take _

/-- Witness for C8 at the three-row round-trip table: all three rows are
returned, in order. -/
theorem top5_head_rows_witness :
    (analyze_data dfThree).top_5_by_market_cap.data.length
        = min 5 dfThree.data.length
    ∧ (analyze_data dfThree).top_5_by_market_cap.data.getD 0 []
        = dfThree.data.getD 0 [] :=
  ⟨(top5_head_rows dfThree rfl).1, (top5_head_rows dfThree rfl).2 0 (by decide)⟩

/-- C10: when the 24h-change column contains NaN entries, the extremum
views never return a NaN row as long as at least one row has a numeric
value; and average_price is the mean of only the non-NaN entries of the
price column. -/
theorem nan_handling (df : DataFrame) (_hcols : df.cols = displayLabels) :
    ((∃ j, j < df.data.length
        ∧ (toNum ((colVals df "24h Change %").getD j Value.nan)).isSome = true) →
      (∃ i m, i < df.data.length
         ∧ (analyze_data df).highest_24h_change.data = [df.data.getD i []]
         ∧ toNum ((colVals df "24h Change %").getD i Value.nan) = some m)
      ∧ (∃ i m, i < df.data.length
         ∧ (analyze_data df).lowest_24h_change.data = [df.data.getD i []]
         ∧ toNum ((colVals df "24h Change %").getD i Value.nan) = some m))
    ∧ (analyze_data df).average_price
        = seriesMean ((colVals df "Price (USD)").filter
            (fun v => (toNum v).isSome)) := by
  constructor
  · rintro ⟨j, hj, hjs⟩
    obtain ⟨q, hq⟩ := Option.isSome_iff_exists.mp hjs
    have hne : df.data ≠ [] := by
      intro h0
      rw [h0] at hj
      simp at hj
    constructor
    · obtain ⟨i, hi, he, hge, _⟩ := nlargest1_cases df "24h Change %" hne
      obtain ⟨m, hm, _⟩ := hge j q hj hq
      have hl : (analyze_data df).highest_24h_change = rowAt df i := he
      exact ⟨i, m, hi, by rw [hl]; rfl, hm⟩
    · obtain ⟨i, hi, he, hge, _⟩ := nsmallest1_cases df "24h Change %" hne
      obtain ⟨m, hm, _⟩ := hge j q hj hq
      have hl : (analyze_data df).lowest_24h_change = rowAt df i := he
      exact ⟨i, m, hi, by rw [hl]; rfl, hm⟩
  · simp [analyze_data, seriesMean, filterMap_toNum_filter]

/-- Witness for C10 at a table whose first row has NaN price and NaN
change: the extremum rows are numeric and the mean skips the NaN price. -/
theorem nan_handling_witness :
    (∃ i m, i < dfNan.data.length
       ∧ (analyze_data dfNan).highest_24h_change.data = [dfNan.data.getD i []]
       ∧ toNum ((colVals dfNan "24h Change %").getD i Value.nan) = some m)
    ∧ (analyze_data dfNan).average_price
        = seriesMean ((colVals dfNan "Price (USD)").filter
            (fun v => (toNum v).isSome)) :=
  ⟨((nan_handling dfNan rfl).1 ⟨1, by decide, by decide⟩).1,
   (nan_handling dfNan rfl).2⟩

end Crypto

namespace Crypto

/-- The built table has one row per input record. -/
theorem process_data_length {l : List RawRecord} {df : DataFrame}
    (h : process_crypto_data l = some df) : df.data.length = l.length := by
  rw [process_crypto_data] at h
  cases hsel : selectCols (pdDataFrame l) requiredKeys with
  | none => rw [hsel] at h; simp at h
  | some d =>
    rw [hsel] at h
    simp only [Option.map_some', Option.some.injEq] at h
    subst h
    rw [selectCols] at hsel
    by_cases hc : requiredKeys.all (fun k => (pdDataFrame l).cols.contains k) = true
    · rw [if_pos hc] at hsel
      obtain rfl := (Option.some.inj hsel).symm
      simp [pdDataFrame]
    · rw [if_neg hc] at hsel
      exact Option.noConfusion hsel

/-- C6 counterexample: the empty record sequence vacuously satisfies the
claim's premise (each of its records contains the six keys), yet the
Table Builder raises KeyError on it instead of producing a six-column
table: pd.DataFrame([]) has no columns, so the selection fails. -/
theorem table_builder_empty_cex : process_crypto_data [] = none := rfl

/-- C6 (amended): for every NON-EMPTY raw record sequence in which each
record contains the six required keys, the Table Builder output has
exactly the six display labels as columns, in the fixed order, with row
count equal to the input row count and every row the in-order projection
of the corresponding input record onto the six keys. -/
theorem table_builder_shape (data : List RawRecord) (hne : data ≠ [])
    (hkeys : ∀ r ∈ data, ∀ k ∈ requiredKeys, (r.lookup k).isSome = true) :
    ∃ df, process_crypto_data data = some df
      ∧ df.cols = displayLabels
      ∧ df.data.length = data.length
      ∧ ∀ i, i < data.length →
          df.data.getD i [] = requiredKeys.map (lookupVal (data.getD i [])) := by
  obtain ⟨r0, rs0, hd⟩ : ∃ r0 rs0, data = r0 :: rs0 := by
    cases data with
    | nil => exact absurd rfl hne
    | cons a l => exact ⟨a, l, rfl⟩
  have hkmem : ∀ k ∈ requiredKeys, k ∈ unionKeys data := by
    intro k hk
    have h2 := hkeys r0 (by rw [hd]; simp) k hk
    exact mem_unionKeys (by rw [hd]; simp) (lookup_isSome_mem h2)
  have hsel : requiredKeys.all (fun k => (unionKeys data).contains k) = true := by
    rw [List.all_eq_true]
    intro k hk
    simpa using hkmem k hk
  refine ⟨{ cols := displayLabels, idx := List.range data.length,
            data := data.map (fun r => requiredKeys.map (lookupVal r)) },
          ?_, rfl, by simp, ?_⟩
  · have hrows : data.map
        (fun r => requiredKeys.map
          (fun k => ((unionKeys data).map (lookupVal r)).getD
            ((unionKeys data).indexOf k) Value.nan))
        = data.map (fun r => requiredKeys.map (lookupVal r)) := by
      refine List.map_congr_left ?_
      intro r _
      refine List.map_congr_left ?_
      intro k hk
      exact getD_map_indexOf (lookupVal r) (hkmem k hk)
    simp only [process_crypto_data, selectCols, pdDataFrame, hsel, if_true,
      List.map_map, Option.map_some']
    rw [show ((fun row => requiredKeys.map
          (fun k => row.getD ((unionKeys data).indexOf k) Value.nan))
        ∘ fun r => (unionKeys data).map (lookupVal r))
        = fun r => requiredKeys.map
          (fun k => ((unionKeys data).map (lookupVal r)).getD
            ((unionKeys data).indexOf k) Value.nan) from rfl]
    rw [hrows]
  · intro i hi
    rw [List.getD_eq_getElem _ _ (by simpa using hi),
        List.getD_eq_getElem _ _ hi, List.getElem_map]

/-- Witness for the amended C6 at a one-record input carrying all six
keys plus an extra key. -/
theorem table_builder_shape_witness :
    ∃ df, process_crypto_data [recA] = some df
      ∧ df.cols = displayLabels
      ∧ df.data.length = [recA].length
      ∧ ∀ i, i < [recA].length →
          df.data.getD i [] = requiredKeys.map (lookupVal ([recA].getD i [])) :=
  table_builder_shape [recA] (by decide) (by decide)

end Crypto

namespace Crypto

/-- C2 counterexample: with a well-formed provider payload, a fault
raised while writing the report file is NOT caught inside the publisher:
it escapes the loop iteration (the process aborts) and the report is not
written — refuting the claim that a fault during either sink write is
caught and cannot abort the process. -/
theorem report_fault_uncaught_cex :
    (runCycle ⟨false, true, "T"⟩
        (ProviderBehavior.reply 200 (some [recA])) fs0).2 = some PyExc.ioError
    ∧ (runCycle ⟨false, true, "T"⟩
        (ProviderBehavior.reply 200 (some [recA])) fs0).1.report = none := by
  constructor <;> rfl

/-- C2 (amended): a fault during the workbook write is caught and logged
inside update_excel, aborts nothing, and does not prevent the report
write of the same cycle; but a fault during the report write is not
caught: it propagates out of the cycle and terminates the process — it
cannot affect the workbook write only because that write has already
completed when the report is attempted. -/
theorem publisher_fault_semantics (now : String) (bw br : Bool)
    (df df' : DataFrame) (a : Analysis) (wb : Workbook)
    (p : ProviderBehavior) (l : List RawRecord) (fs : FileState)
    (hf : fetch_crypto_data p = Except.ok (some l))
    (hp : process_crypto_data l = some df') :
    update_excel ⟨true, br, now⟩ df a wb = (wb, true)
    ∧ (runCycle ⟨true, false, now⟩ p fs).2 = none
    ∧ (runCycle ⟨true, false, now⟩ p fs).1.report
        = some (renderReport now (analyze_data df'))
    ∧ (runCycle ⟨bw, true, now⟩ p fs).2 = some PyExc.ioError
    ∧ (runCycle ⟨bw, true, now⟩ p fs).1.workbook
        = (update_excel ⟨bw, true, now⟩ df' (analyze_data df') fs.workbook).1 := by
  obtain ⟨r, rs, rfl⟩ : ∃ r rs, l = r :: rs := by
    cases l with
    | nil =>
      rw [show process_crypto_data [] = none from rfl] at hp
      exact Option.noConfusion hp
    | cons r rs => exact ⟨r, rs, rfl⟩
  have hdfne : df'.data ≠ [] := by
    have hlen := process_data_length hp
    intro h0
    rw [h0] at hlen
    simp at hlen
  have hh1 : (analyze_data df').highest_24h_change.data ≠ [] := by
    intro h0
    have hlen := nlargest1_one_row df' "24h Change %" hdfne
    rw [show (analyze_data df').highest_24h_change
        = nlargest1 df' "24h Change %" from rfl] at h0
    rw [h0] at hlen
    simp at hlen
  have hh2 : (analyze_data df').lowest_24h_change.data ≠ [] := by
    intro h0
    have hlen := nsmallest1_one_row df' "24h Change %" hdfne
    rw [show (analyze_data df').lowest_24h_change
        = nsmallest1 df' "24h Change %" from rfl] at h0
    rw [h0] at hlen
    simp at hlen
  have hrep : generate_report ⟨true, false, now⟩ (analyze_data df')
      = Except.ok (renderReport now (analyze_data df')) :=
    generate_report_ok ⟨true, false, now⟩ (analyze_data df') rfl hh1 hh2
  have hrep2 : generate_report ⟨bw, true, now⟩ (analyze_data df')
      = Except.error PyExc.ioError := by
    simp [generate_report]
  have hcyc1 : runCycle ⟨true, false, now⟩ p fs
      = ({ workbook := fs.workbook,
           report := some (renderReport now (analyze_data df')) }, none) := by
    simp [runCycle, hf, hp, hrep, update_excel]
  have hcyc2 : runCycle ⟨bw, true, now⟩ p fs
      = ({ workbook := (update_excel ⟨bw, true, now⟩ df'
             (analyze_data df') fs.workbook).1,
           report := fs.report }, some PyExc.ioError) := by
    simp [runCycle, hf, hp, hrep2]
  refine ⟨by simp [update_excel], ?_, ?_, ?_, ?_⟩
  · rw [hcyc1]
  · rw [hcyc1]
  · rw [hcyc2]
  · rw [hcyc2]

/-- Witness for the amended C2 at concrete inputs: with a workbook fault
and a healthy filesystem the cycle completes and the report is written;
with a report fault the cycle escapes with the uncaught exception. -/
theorem publisher_fault_semantics_witness :
    update_excel ⟨true, false, "T"⟩ dfTwo (analyze_data dfTwo) wb0 = (wb0, true)
    ∧ (runCycle ⟨true, false, "T"⟩
        (ProviderBehavior.reply 200 (some [recA])) fs0).2 = none
    ∧ (runCycle ⟨false, true, "T"⟩
        (ProviderBehavior.reply 200 (some [recA])) fs0).2 = some PyExc.ioError := by
  obtain ⟨h1, h2, h3, h4, h5⟩ := publisher_fault_semantics "T" false false
    dfTwo
    { cols := displayLabels, idx := [0],
      data := [[Value.str "Alpha", Value.str "ALP", Value.num 1,
                Value.num 100, Value.num 10, Value.num 5]] }
    (analyze_data dfTwo) wb0
    (ProviderBehavior.reply 200 (some [recA])) [recA] fs0 rfl rfl
  exact ⟨h1, h2, h4⟩

end Crypto

namespace Crypto

/-- C4 counterexample: writing a two-row table and then a one-row table
to the same workbook leaves the second record of the first table on the
data sheet (zero-based cell (2,1), spreadsheet cell B3): the second
publish writes a smaller region and does not clear beyond it, so a cell
does retain data from the first write. Writing only the second table to
the same initially empty workbook leaves that cell empty. -/
theorem update_excel_retains_stale_cex :
    getCell ((update_excel ⟨false, false, "T2"⟩ dfOne (analyze_data dfOne)
        ((update_excel ⟨false, false, "T1"⟩ dfTwo (analyze_data dfTwo) wb0).1)).1).cryptoData
      (2, 1) = some (Value.str "Bravo")
    ∧ getCell ((update_excel ⟨false, false, "T2"⟩ dfOne (analyze_data dfOne)
        wb0).1).cryptoData (2, 1) = none := by
  constructor <;> rfl

/-- C4 (amended): every cell inside the region written by the second
publish holds exactly the second table's data and summary values — its
content is the same as after publishing the second table alone — while
every cell outside that region retains whatever the first publish left
there: the write overwrites at the fixed anchors but does not clear cells
beyond its own extent, so a second table with fewer rows leaves stale
first-table cells in place. -/
theorem update_excel_overwrite_frame (env₁ env₂ : Env) (df₁ df₂ : DataFrame)
    (a₁ a₂ : Analysis) (wb : Workbook) (point : Nat × Nat)
    (h₁ : env₁.wbFault = false) (h₂ : env₂.wbFault = false) :
    (point ∈ (updCellsData env₂ df₂).map Prod.fst →
      getCell ((update_excel env₂ df₂ a₂
          ((update_excel env₁ df₁ a₁ wb).1)).1).cryptoData point
        = getCell ((update_excel env₂ df₂ a₂ wb).1).cryptoData point)
    ∧ (point ∈ (updCellsAnalysis a₂).map Prod.fst →
      getCell ((update_excel env₂ df₂ a₂
          ((update_excel env₁ df₁ a₁ wb).1)).1).analysisSheet point
        = getCell ((update_excel env₂ df₂ a₂ wb).1).analysisSheet point)
    ∧ (point ∉ (updCellsData env₂ df₂).map Prod.fst →
      getCell ((update_excel env₂ df₂ a₂
          ((update_excel env₁ df₁ a₁ wb).1)).1).cryptoData point
        = getCell ((update_excel env₁ df₁ a₁ wb).1).cryptoData point)
    ∧ (point ∉ (updCellsAnalysis a₂).map Prod.fst →
      getCell ((update_excel env₂ df₂ a₂
          ((update_excel env₁ df₁ a₁ wb).1)).1).analysisSheet point
        = getCell ((update_excel env₁ df₁ a₁ wb).1).analysisSheet point) := by
  simp only [update_excel, h₁, h₂, Bool.false_eq_true, if_false]
  refine ⟨fun hm => ?_, fun hm => ?_, fun hm => ?_, fun hm => ?_⟩
  · simp only [update_excel_ok]
    rw [getCell_append_of_mem _ hm, getCell_append_of_mem _ hm]
  · simp only [update_excel_ok]
    rw [getCell_append_of_mem _ hm, getCell_append_of_mem _ hm]
  · simp only [update_excel_ok]
    rw [getCell_append_of_not_mem _ hm]
  · simp only [update_excel_ok]
    rw [getCell_append_of_not_mem _ hm]

/-- Witness for the amended C4 at concrete inputs: the timestamp anchor
I1 (zero-based (0,8)) lies inside the second write's region, so after the
two publishes it reads the same as after publishing the second table
alone; cell (2,1) lies outside it and reads the same as after the first
publish alone. -/
theorem update_excel_overwrite_frame_witness :
    getCell ((update_excel ⟨false, false, "T2"⟩ dfOne (analyze_data dfOne)
        ((update_excel ⟨false, false, "T1"⟩ dfTwo (analyze_data dfTwo) wb0).1)).1).cryptoData
      (0, 8)
      = getCell ((update_excel ⟨false, false, "T2"⟩ dfOne (analyze_data dfOne)
          wb0).1).cryptoData (0, 8)
    ∧ getCell ((update_excel ⟨false, false, "T2"⟩ dfOne (analyze_data dfOne)
        ((update_excel ⟨false, false, "T1"⟩ dfTwo (analyze_data dfTwo) wb0).1)).1).cryptoData
      (2, 1)
      = getCell ((update_excel ⟨false, false, "T1"⟩ dfTwo (analyze_data dfTwo)
          wb0).1).cryptoData (2, 1) :=
  ⟨(update_excel_overwrite_frame ⟨false, false, "T1"⟩ ⟨false, false, "T2"⟩
      dfTwo dfOne (analyze_data dfTwo) (analyze_data dfOne) wb0 (0, 8)
      rfl rfl).1 (by decide),
   (update_excel_overwrite_frame ⟨false, false, "T1"⟩ ⟨false, false, "T2"⟩
      dfTwo dfOne (analyze_data dfTwo) (analyze_data dfOne) wb0 (2, 1)
      rfl rfl).2.2.1 (by decide)⟩

end Crypto
